/-
Verification of the gtin-validate library (GTIN-8/12/13/14 validation and
repair) against its specification.

Strings are modelled as `List Char` (Lean `Char` is a Unicode scalar value,
matching Rust `char`).  Rust's `str::len` is a UTF-8 byte count, so byte
views are made explicit via `utf8Bytes`/`byteLen`.  Machine integers are
modelled as `Nat` with explicit reduction modulo 2^8 / 2^16 where the Rust
code performs `u8`/`u16` arithmetic that can wrap.
-/
import Mathlib

namespace GtinValidate

/-- Unicode scalar values with the White_Space property, i.e. the set used
by Rust's `char::is_whitespace`, which `str::trim`, `trim_left` and
`trim_right` strip from the ends of a string. -/
def isRustWhitespace (c : Char) : Bool :=
  let n := c.toNat
  (0x09 ≤ n && n ≤ 0x0D) || n == 0x20 || n == 0x85 || n == 0xA0 ||
  n == 0x1680 || (0x2000 ≤ n && n ≤ 0x200A) || n == 0x2028 || n == 0x2029 ||
  n == 0x202F || n == 0x205F || n == 0x3000

/-- `str::trim` (equivalently `trim_left().trim_right()`): remove leading
and trailing Unicode whitespace. -/
def rustTrim (s : List Char) : List Char :=
  ((s.dropWhile isRustWhitespace).reverse.dropWhile isRustWhitespace).reverse

/-- UTF-8 encoding of one scalar value, as byte values. -/
def utf8EncodeChar (c : Char) : List Nat :=
  let n := c.toNat
  if n < 0x80 then [n]
  else if n < 0x800 then [0xC0 + n / 64, 0x80 + n % 64]
  else if n < 0x10000 then [0xE0 + n / 4096, 0x80 + n / 64 % 64, 0x80 + n % 64]
  else [0xF0 + n / 262144, 0x80 + n / 4096 % 64, 0x80 + n / 64 % 64, 0x80 + n % 64]

/-- `str::as_bytes`: the UTF-8 byte view of a string. -/
def utf8Bytes (s : List Char) : List Nat :=
  (s.map utf8EncodeChar).flatten

/-- `str::len`: the length of a string in UTF-8 bytes. -/
def byteLen (s : List Char) : Nat :=
  (utf8Bytes s).length

/-- `str::is_ascii`: every byte (equivalently every scalar value) is below
0x80. -/
def isAsciiStr (s : List Char) : Bool :=
  s.all fun c => c.toNat < 0x80

/-- `u8` wrapping subtraction of `b` from `a` (both assumed < 256). -/
def wsub8 (a b : Nat) : Nat :=
  (a + 256 - b) % 256

namespace utils

/-- `utils::is_ascii_numeric`: every character of `s` is an ASCII decimal
digit (`char::is_ascii_digit`). -/
def is_ascii_numeric (s : List Char) : Bool :=
  s.all fun c => 48 ≤ c.toNat && c.toNat ≤ 57

/-- The accumulation loop of `utils::compute_check_digit`, as a recursion
over the first `len − 1` bytes taken in reverse order (index `len − 2`
first, exactly the order of the Rust loop `for i in 2..bytes.len() + 1`).
The head of the list lands in the `odd` accumulator (`i` even in the Rust
loop), the next in `even`, alternating.  Each step performs the `u8`
wrapping subtraction `byte - 48` and the `u16` wrapping addition into the
accumulator; `u16` state is represented as a `Nat` kept below 2^16 by the
`% 65536`.  (Addition modulo 2^16 is commutative and associative, so
accumulating from the far end of the list, as structural recursion does,
yields the same accumulator values as the Rust loop.) -/
def altSums : List Nat → Nat × Nat
  | [] => (0, 0)
  | b :: rest =>
    let p := altSums rest
    ((wsub8 b 48 + p.2) % 65536, p.1)

/-- `utils::compute_check_digit` (non-simd): weighted mod-10 check digit of
the first `bytes.len() − 1` bytes; `3 * odd + even` is `u16` arithmetic,
the final value is cast to `u8` (it is below 10, so the cast truncates
nothing and is not modelled). -/
def compute_check_digit (bytes : List Nat) : Nat :=
  let p := altSums ((bytes.take (bytes.length - 1)).reverse)
  let check := (3 * p.1 + p.2) % 65536 % 10
  if check > 0 then 10 - check else check

/-- `utils::zero_pad`: prepend `'0'` characters until the string reaches
`size` bytes; a string of `size` or more bytes is returned unchanged. -/
def zero_pad (upc : List Char) (size : Nat) : List Char :=
  if byteLen upc ≥ size then upc
  else List.replicate (size - byteLen upc) '0' ++ upc

/-- The mathematical weighted sum named by the spec, without any machine
arithmetic: digit values of the first `len − 1` bytes taken in reverse
order, heads landing in the first (weight-3) component, alternating. -/
def gs1AltSum : List Nat → Nat × Nat
  | [] => (0, 0)
  | b :: rest =>
    let p := gs1AltSum rest
    (b - 48 + p.2, p.1)

/-- The spec's `weighted_sum`: alternating weights 3 and 1 on the digits
walking leftward from the digit immediately left of the last position,
weight 3 on that digit. -/
def gs1WeightedSum (bytes : List Nat) : Nat :=
  let p := gs1AltSum ((bytes.take (bytes.length - 1)).reverse)
  3 * p.1 + p.2

/-- The accumulation loop of `compute_check_digit` with every potential
panic site made explicit (`none` = panic): the `u8` subtraction
`bytes[..] - 48` underflows on a byte below 48, and each `u16` accumulator
addition can overflow.  (The slice index `bytes[bytes.len() - i]` is in
range for every loop iteration by construction, so it is not a reachable
panic site and the recursion over the reversed prefix models it exactly.) -/
def ccdAuxChecked : List Nat → Option (Nat × Nat)
  | [] => some (0, 0)
  | b :: rest => do
    let p ← ccdAuxChecked rest
    if b < 48 then none
    else if p.2 + (b - 48) ≥ 65536 then none
    else some (p.2 + (b - 48), p.1)

/-- `compute_check_digit` with panic sites explicit: the loop (see
`ccdAuxChecked`) plus the `u16` products and sums `3 * odd + even`. -/
def compute_check_digit_checked (bytes : List Nat) : Option Nat := do
  let p ← ccdAuxChecked ((bytes.take (bytes.length - 1)).reverse)
  if 3 * p.1 ≥ 65536 then none
  else if 3 * p.1 + p.2 ≥ 65536 then none
  else
    let check := (3 * p.1 + p.2) % 10
    some (if check > 0 then 10 - check else check)

/-- Modelled from the spec: `utils::is_number(bytes, length)` is called by
`gtin13::check` but is absent from `src/utils`; per the spec's digit
classification, it holds iff every one of the first `length` bytes is an
ASCII decimal digit. -/
def is_number (bytes : List Nat) (length : Nat) : Bool :=
  (bytes.take length).all fun b => 48 ≤ b && b ≤ 57

/-- Modelled from the spec: the two-argument
`utils::compute_check_digit(digits, length)` called by `gtin13::check` is
absent from `src/utils`; per the spec it computes the weighted check digit
from the first `length − 1` digits, i.e. it agrees with the one-argument
version applied to the first `length` bytes. -/
def compute_check_digit_len (bytes : List Nat) (length : Nat) : Nat :=
  compute_check_digit (bytes.take length)

end utils

/-- The error type shared (up to renaming) by all four `FixError` enums. -/
inductive FixError where
  | NonAsciiString
  | TooLong
  | CheckDigitIncorrect
deriving DecidableEq, Repr

namespace gtin8

/-- `gtin8::check`. -/
def check (code : List Char) : Bool :=
  if byteLen code ≠ 8 then false
  else if !utils.is_ascii_numeric code then false
  else
    let bytes := utf8Bytes code
    let check := utils.compute_check_digit bytes
    if check ≠ wsub8 (bytes.getD 7 0) 48 then false
    else true

/-- `gtin8::fix`. -/
def fix (code : List Char) : Except FixError (List Char) :=
  let fixed := rustTrim code
  if !isAsciiStr fixed then .error .NonAsciiString
  else if byteLen fixed > 8 then .error .TooLong
  else
    let fixed := utils.zero_pad fixed 8
    if !check fixed then .error .CheckDigitIncorrect
    else .ok fixed

end gtin8

namespace gtin12

/-- `gtin12::check` (non-simd). -/
def check (code : List Char) : Bool :=
  if byteLen code ≠ 12 then false
  else if !utils.is_ascii_numeric code then false
  else
    let bytes := utf8Bytes code
    let check := utils.compute_check_digit bytes
    check + 48 == bytes.getD 11 0

/-- `gtin12::fix`. -/
def fix (code : List Char) : Except FixError (List Char) :=
  let fixed := rustTrim code
  if !isAsciiStr fixed then .error .NonAsciiString
  else if byteLen fixed > 12 then .error .TooLong
  else
    let fixed := utils.zero_pad fixed 12
    if !check fixed then .error .CheckDigitIncorrect
    else .ok fixed

end gtin12

namespace gtin13

/-- `gtin13::check`. -/
def check (code : List Char) : Bool :=
  if !isAsciiStr code then false
  else if byteLen code ≠ 13 then false
  else
    let bytes := utf8Bytes code
    if !utils.is_number bytes 13 then false
    else
      let check := utils.compute_check_digit_len bytes 13
      if check ≠ wsub8 (bytes.getD 12 0) 48 then false
      else true

/-- `gtin13::fix` (`trim_left().trim_right()` is `trim`). -/
def fix (code : List Char) : Except FixError (List Char) :=
  let fixed := rustTrim code
  if !isAsciiStr fixed then .error .NonAsciiString
  else if byteLen fixed > 13 then .error .TooLong
  else
    let fixed := utils.zero_pad fixed 13
    if !check fixed then .error .CheckDigitIncorrect
    else .ok fixed

end gtin13

namespace gtin14

/-- `gtin14::check` (non-simd). -/
def check (code : List Char) : Bool :=
  if byteLen code ≠ 14 then false
  else if !utils.is_ascii_numeric code then false
  else
    let bytes := utf8Bytes code
    let check := utils.compute_check_digit bytes
    check + 48 == bytes.getD 13 0

/-- `gtin14::fix`. -/
def fix (code : List Char) : Except FixError (List Char) :=
  let fixed := rustTrim code
  if !isAsciiStr fixed then .error .NonAsciiString
  else if byteLen fixed > 14 then .error .TooLong
  else
    let fixed := utils.zero_pad fixed 14
    if !check fixed then .error .CheckDigitIncorrect
    else .ok fixed

end gtin14

/-! ### A common parameterized form of the four validators

The four `check` functions differ only in the constant length and in
whether the final comparison is written `check + 48 == bytes[L-1]` or
`check != bytes[L-1] - 48`; the four `fix` functions differ only in the
constant length.  `checkG`/`fixG` capture the common shape; the lemmas
below prove each module function equal to its instance. -/

/-- The common shape of the four `check` functions. -/
def checkG (L : Nat) (code : List Char) : Bool :=
  if byteLen code ≠ L then false
  else if !utils.is_ascii_numeric code then false
  else
    let bytes := utf8Bytes code
    utils.compute_check_digit bytes + 48 == bytes.getD (L - 1) 0

/-- The common shape of the four `fix` functions, over an arbitrary
check predicate. -/
def fixG (L : Nat) (chk : List Char → Bool) (code : List Char) :
    Except FixError (List Char) :=
  let fixed := rustTrim code
  if !isAsciiStr fixed then .error .NonAsciiString
  else if byteLen fixed > L then .error .TooLong
  else
    let fixed := utils.zero_pad fixed L
    if !chk fixed then .error .CheckDigitIncorrect
    else .ok fixed

/-- The common shape of the four `check` functions with every potential
panic site explicit (`none` = panic): the checked check-digit loop, the
final `u8` arithmetic on the check digit, and the slice index
`bytes[L - 1]`. -/
def checkChecked (L : Nat) (code : List Char) : Option Bool :=
  if byteLen code ≠ L then some false
  else if !utils.is_ascii_numeric code then some false
  else do
    let bytes := utf8Bytes code
    let check ← utils.compute_check_digit_checked bytes
    if check + 48 ≥ 256 then none
    else
      match bytes.get? (L - 1) with
      | none => none
      | some last => if last < 48 then none else some (check + 48 == last)

/-! ### Bridging lemmas -/

theorem wsub8_of_le (a : Nat) (h : 48 ≤ a) (h' : a < 256) :
    wsub8 a 48 = a - 48 := by
  unfold wsub8
  omega

theorem utf8EncodeChar_ascii (c : Char) (h : c.toNat < 128) :
    utf8EncodeChar c = [c.toNat] := by
  unfold utf8EncodeChar
  simp [h]

theorem utf8Bytes_ascii (s : List Char) (h : isAsciiStr s = true) :
    utf8Bytes s = s.map (fun c => c.toNat) := by
  induction s with
  | nil => rfl
  | cons c cs ih =>
    simp only [isAsciiStr, List.all_cons, Bool.and_eq_true, decide_eq_true_eq] at h
    simp only [utf8Bytes, List.map_cons, List.flatten_cons,
      utf8EncodeChar_ascii c h.1]
    have := ih (by simpa [isAsciiStr] using h.2)
    simp only [utf8Bytes] at this
    simp [this]

theorem byteLen_ascii (s : List Char) (h : isAsciiStr s = true) :
    byteLen s = s.length := by
  simp [byteLen, utf8Bytes_ascii s h]

theorem isAsciiStr_of_numeric (s : List Char)
    (h : utils.is_ascii_numeric s = true) : isAsciiStr s = true := by
  simp only [utils.is_ascii_numeric, List.all_eq_true, Bool.and_eq_true,
    decide_eq_true_eq] at h
  simp only [isAsciiStr, List.all_eq_true, decide_eq_true_eq]
  intro c hc
  have := h c hc
  omega

theorem altSums_eq_gs1 (l : List Nat)
    (h : ∀ b ∈ l, 48 ≤ b ∧ b ≤ 57) :
    utils.altSums l = ((utils.gs1AltSum l).1 % 65536, (utils.gs1AltSum l).2 % 65536) := by
  induction l with
  | nil => rfl
  | cons b rest ih =>
    have hb := h b (List.mem_cons_self b rest)
    have hrest : ∀ x ∈ rest, 48 ≤ x ∧ x ≤ 57 :=
      fun x hx => h x (List.mem_cons_of_mem b hx)
    have hw : wsub8 b 48 = b - 48 := wsub8_of_le b hb.1 (by omega)
    simp only [utils.altSums, utils.gs1AltSum, ih hrest, hw, Prod.mk.injEq]
    exact ⟨by omega, trivial⟩

/-- For all-digit inputs the sum components are bounded by 9 per digit. -/
theorem utils.gs1AltSum_le_digits (l : List Nat) (h : ∀ b ∈ l, 48 ≤ b ∧ b ≤ 57) :
    (utils.gs1AltSum l).1 ≤ 9 * l.length ∧ (utils.gs1AltSum l).2 ≤ 9 * l.length := by
  induction l with
  | nil => simp [utils.gs1AltSum]
  | cons b rest ih =>
    have hb := h b (List.mem_cons_self b rest)
    have hrest : ∀ x ∈ rest, 48 ≤ x ∧ x ≤ 57 :=
      fun x hx => h x (List.mem_cons_of_mem b hx)
    have := ih hrest
    simp only [utils.gs1AltSum, List.length_cons]
    omega

theorem compute_check_digit_lt_10 (bytes : List Nat) :
    utils.compute_check_digit bytes < 10 := by
  unfold utils.compute_check_digit
  set p := utils.altSums ((bytes.take (bytes.length - 1)).reverse)
  set c := (3 * p.1 + p.2) % 65536 % 10 with hc
  have : c < 10 := Nat.mod_lt _ (by norm_num)
  by_cases h : c > 0
  · rw [if_pos h]
    omega
  · rw [if_neg h]
    omega

theorem compute_check_digit_formula (bytes : List Nat)
    (h : ∀ b ∈ bytes, 48 ≤ b ∧ b ≤ 57) :
    utils.compute_check_digit bytes =
      (10 - utils.gs1WeightedSum bytes % 65536 % 10) % 10 := by
  have hsub : ∀ b ∈ (bytes.take (bytes.length - 1)).reverse, 48 ≤ b ∧ b ≤ 57 := by
    intro b hb
    exact h b (List.mem_of_mem_take (List.mem_reverse.mp hb))
  unfold utils.compute_check_digit utils.gs1WeightedSum
  rw [altSums_eq_gs1 _ hsub]
  dsimp only
  set g := utils.gs1AltSum ((bytes.take (bytes.length - 1)).reverse) with hg
  have hmod : (3 * (g.1 % 65536) + g.2 % 65536) % 65536
      = (3 * g.1 + g.2) % 65536 := by omega
  rw [hmod]
  split_ifs with h0 <;> omega

theorem compute_check_digit_last_irrelevant (l : List Nat) (b b' : Nat) :
    utils.compute_check_digit (l ++ [b]) =
      utils.compute_check_digit (l ++ [b']) := by
  unfold utils.compute_check_digit
  have ht : ∀ x : Nat, ((l ++ [x]).take ((l ++ [x]).length - 1)) = l := by
    intro x
    simp
  rw [ht b, ht b']

theorem is_ascii_numeric_concat (l : List Char) (a : Char)
    (h : utils.is_ascii_numeric (l ++ [a]) = true) :
    utils.is_ascii_numeric l = true ∧ 48 ≤ a.toNat ∧ a.toNat ≤ 57 := by
  simp only [utils.is_ascii_numeric, List.all_append, List.all_cons,
    List.all_nil, Bool.and_eq_true, Bool.and_true,
    decide_eq_true_eq] at h ⊢
  exact ⟨h.1, h.2⟩

/-- All bytes of an all-digit string's byte view are digit bytes. -/
theorem utf8Bytes_digits (code : List Char)
    (h : utils.is_ascii_numeric code = true) :
    ∀ b ∈ utf8Bytes code, 48 ≤ b ∧ b ≤ 57 := by
  rw [utf8Bytes_ascii _ (isAsciiStr_of_numeric _ h)]
  simp only [utils.is_ascii_numeric, List.all_eq_true, Bool.and_eq_true,
    decide_eq_true_eq] at h
  intro b hb
  rcases List.mem_map.mp hb with ⟨c, hc, rfl⟩
  exact h c hc

/-- The characterization of the common check shape: true iff the string is
ASCII, has exactly `L` characters, is all digits, and its computed check
digit equals the digit value of its last character. -/
theorem checkG_iff (L : Nat) (hL : 0 < L) (code : List Char) :
    checkG L code = true ↔
      isAsciiStr code = true ∧ code.length = L ∧
      utils.is_ascii_numeric code = true ∧
      utils.compute_check_digit (utf8Bytes code) =
        (code.getLastD ' ').toNat - 48 := by
  rcases code.eq_nil_or_concat with rfl | ⟨l, a, rfl⟩
  · simp only [checkG, byteLen, utf8Bytes, List.map_nil, List.flatten_nil,
      List.length_nil]
    constructor
    · intro hfalse
      rw [if_pos (by omega)] at hfalse
      exact absurd hfalse (by simp)
    · rintro ⟨-, hlen, -, -⟩
      omega
  · rw [List.concat_eq_append]
    by_cases hnum : utils.is_ascii_numeric (l ++ [a]) = true
    · have hascii := isAsciiStr_of_numeric _ hnum
      have hbytes := utf8Bytes_ascii _ hascii
      have hblen : byteLen (l ++ [a]) = (l ++ [a]).length := byteLen_ascii _ hascii
      have ha := (is_ascii_numeric_concat l a hnum).2
      by_cases hlen : (l ++ [a]).length = L
      · have hL1 : L - 1 = l.length := by
          simp only [List.length_append, List.length_cons, List.length_nil] at hlen
          omega
        have hgetD : (utf8Bytes (l ++ [a])).getD (L - 1) 0 = a.toNat := by
          rw [hbytes, hL1, List.map_append, List.getD_eq_getElem?_getD,
            List.getElem?_append_right (by simp)]
          simp
        have hlast : ((l ++ [a]).getLastD ' ') = a := List.getLastD_concat _ _ _
        unfold checkG
        rw [if_neg (by omega), if_neg (by simp [hnum])]
        dsimp only
        rw [hgetD, hlast]
        have hc := compute_check_digit_lt_10 (utf8Bytes (l ++ [a]))
        constructor
        · intro hbeq
          have : utils.compute_check_digit (utf8Bytes (l ++ [a])) + 48 = a.toNat := by
            simpa using hbeq
          exact ⟨hascii, hlen, hnum, by omega⟩
        · rintro ⟨-, -, -, heq⟩
          have : utils.compute_check_digit (utf8Bytes (l ++ [a])) + 48 = a.toNat := by
            omega
          simp [this]
      · unfold checkG
        rw [if_pos (by omega)]
        constructor
        · intro hfalse
          exact absurd hfalse (by simp)
        · rintro ⟨-, hlen2, -, -⟩
          exact absurd hlen2 hlen
    · have : checkG L (l ++ [a]) = false := by
        unfold checkG
        by_cases h1 : byteLen (l ++ [a]) ≠ L
        · rw [if_pos h1]
        · rw [if_neg h1, if_pos (by simp [hnum])]
      rw [this]
      constructor
      · intro hfalse
        exact absurd hfalse (by simp)
      · rintro ⟨-, -, hnum2, -⟩
        exact absurd hnum2 hnum

/-- A digit byte at a valid index of an all-digit string's byte view. -/
theorem getD_digit_of_numeric (code : List Char) (i : Nat)
    (h : utils.is_ascii_numeric code = true)
    (hi : i < (utf8Bytes code).length) :
    48 ≤ (utf8Bytes code).getD i 0 ∧ (utf8Bytes code).getD i 0 ≤ 57 := by
  rw [List.getD_eq_getElem _ _ hi]
  exact utf8Bytes_digits code h _ (List.getElem_mem hi)

/-- The two ways the sources write the final comparison agree: testing
`check != bytes[i] - 48` (and returning the negation) equals testing
`check + 48 == bytes[i]`, for a sub-10 check value and a digit byte. -/
theorem check_digit_compare_eq (c y : Nat) (hc : c < 10) (hy : 48 ≤ y)
    (hy' : y < 256) :
    (if c ≠ wsub8 y 48 then false else true) = (c + 48 == y) := by
  rw [wsub8_of_le _ hy hy']
  by_cases he : c = y - 48
  · rw [if_neg (by omega)]
    have : c + 48 = y := by omega
    simp [this]
  · rw [if_pos (by omega)]
    have : c + 48 ≠ y := by omega
    simp [this]

theorem all_map_toNat (l : List Char) (p : Nat → Bool) :
    (l.map (fun c => c.toNat)).all p = l.all (fun c => p c.toNat) := by
  induction l with
  | nil => rfl
  | cons c cs ih => simp [List.all_cons, ih]

theorem gtin8_check_eq (code : List Char) :
    gtin8.check code = checkG 8 code := by
  by_cases h1 : byteLen code ≠ 8
  · unfold gtin8.check checkG
    rw [if_pos h1, if_pos h1]
  · by_cases h2 : utils.is_ascii_numeric code
    · have hlen : (utf8Bytes code).length = 8 := by
        simpa [byteLen] using not_not.mp h1
      have hd := getD_digit_of_numeric code 7 h2 (by omega)
      have hlhs : gtin8.check code
          = (if utils.compute_check_digit (utf8Bytes code)
              ≠ wsub8 ((utf8Bytes code).getD 7 0) 48 then false else true) := by
        unfold gtin8.check
        rw [if_neg h1, if_neg (by simp [h2])]
      have hrhs : checkG 8 code
          = (utils.compute_check_digit (utf8Bytes code) + 48
              == (utf8Bytes code).getD 7 0) := by
        unfold checkG
        rw [if_neg h1, if_neg (by simp [h2])]
      rw [hlhs, hrhs]
      exact check_digit_compare_eq _ _ (compute_check_digit_lt_10 _) hd.1
        (by omega)
    · unfold gtin8.check checkG
      rw [if_neg h1, if_neg h1, if_pos (by simp [h2]), if_pos (by simp [h2])]

theorem gtin12_check_eq (code : List Char) :
    gtin12.check code = checkG 12 code := rfl

theorem gtin14_check_eq (code : List Char) :
    gtin14.check code = checkG 14 code := rfl

theorem gtin13_check_eq (code : List Char) :
    gtin13.check code = checkG 13 code := by
  by_cases hascii : isAsciiStr code
  · by_cases h1 : byteLen code ≠ 13
    · unfold gtin13.check checkG
      rw [if_neg (by simp [hascii]), if_pos h1, if_pos h1]
    · have hlen : (utf8Bytes code).length = 13 := by
        simpa [byteLen] using not_not.mp h1
      have htake : (utf8Bytes code).take 13 = utf8Bytes code := by
        rw [← hlen, List.take_length]
      have hnum_eq : utils.is_number (utf8Bytes code) 13
          = utils.is_ascii_numeric code := by
        unfold utils.is_number utils.is_ascii_numeric
        rw [htake, utf8Bytes_ascii _ hascii, all_map_toNat]
      by_cases h2 : utils.is_ascii_numeric code
      · have hd := getD_digit_of_numeric code 12 h2 (by omega)
        have hcd : utils.compute_check_digit_len (utf8Bytes code) 13
            = utils.compute_check_digit (utf8Bytes code) := by
          unfold utils.compute_check_digit_len
          rw [htake]
        have hlhs : gtin13.check code
            = (if utils.compute_check_digit (utf8Bytes code)
                ≠ wsub8 ((utf8Bytes code).getD 12 0) 48 then false else true) := by
          unfold gtin13.check
          rw [if_neg (by simp [hascii]), if_neg h1,
            if_neg (by simp [hnum_eq, h2])]
          dsimp only
          rw [hcd]
        have hrhs : checkG 13 code
            = (utils.compute_check_digit (utf8Bytes code) + 48
                == (utf8Bytes code).getD 12 0) := by
          unfold checkG
          rw [if_neg h1, if_neg (by simp [h2])]
        rw [hlhs, hrhs]
        exact check_digit_compare_eq _ _ (compute_check_digit_lt_10 _) hd.1
          (by omega)
      · unfold gtin13.check checkG
        rw [if_neg (by simp [hascii]), if_neg h1, if_neg h1,
          if_pos (by simp [hnum_eq, h2]), if_pos (by simp [h2])]
  · have h2 : utils.is_ascii_numeric code = false := by
      by_contra h
      exact hascii (isAsciiStr_of_numeric code (Bool.of_not_eq_false h))
    by_cases h1 : byteLen code ≠ 13
    · unfold gtin13.check checkG
      rw [if_pos (by simp [hascii]), if_pos h1]
    · unfold gtin13.check checkG
      rw [if_pos (by simp [hascii]), if_neg h1, if_pos (by simp [h2])]

/-! ### Trimming, padding and the common fix shape -/

theorem gtin8_fix_eq : gtin8.fix = fixG 8 gtin8.check := rfl

theorem gtin12_fix_eq : gtin12.fix = fixG 12 gtin12.check := rfl

theorem gtin13_fix_eq : gtin13.fix = fixG 13 gtin13.check := rfl

theorem gtin14_fix_eq : gtin14.fix = fixG 14 gtin14.check := rfl

theorem fixG_nonascii (L : Nat) (chk : List Char → Bool) (code : List Char)
    (h : isAsciiStr (rustTrim code) = false) :
    fixG L chk code = .error .NonAsciiString := by
  unfold fixG
  rw [if_pos (by simp [h])]

theorem fixG_toolong (L : Nat) (chk : List Char → Bool) (code : List Char)
    (h : isAsciiStr (rustTrim code) = true)
    (hlen : byteLen (rustTrim code) > L) :
    fixG L chk code = .error .TooLong := by
  unfold fixG
  rw [if_neg (by simp [h]), if_pos hlen]

theorem fixG_ok (L : Nat) (chk : List Char → Bool) (code r : List Char)
    (h : fixG L chk code = .ok r) :
    r = utils.zero_pad (rustTrim code) L ∧ chk r = true := by
  unfold fixG at h
  by_cases h1 : isAsciiStr (rustTrim code)
  · rw [if_neg (by simp [h1])] at h
    by_cases h2 : byteLen (rustTrim code) > L
    · rw [if_pos h2] at h
      exact absurd h (by simp)
    · rw [if_neg h2] at h
      by_cases h3 : chk (utils.zero_pad (rustTrim code) L)
      · rw [if_neg (by simp [h3])] at h
        cases h
        exact ⟨rfl, h3⟩
      · rw [if_pos (by simp [h3])] at h
        exact absurd h (by simp)
  · rw [if_pos (by simp [h1])] at h
    exact absurd h (by simp)

theorem fixG_ok_of (L : Nat) (chk : List Char → Bool) (code : List Char)
    (h : isAsciiStr (rustTrim code) = true)
    (hlen : ¬ byteLen (rustTrim code) > L)
    (hchk : chk (utils.zero_pad (rustTrim code) L) = true) :
    fixG L chk code = .ok (utils.zero_pad (rustTrim code) L) := by
  unfold fixG
  rw [if_neg (by simp [h]), if_neg hlen, if_neg (by simp [hchk])]

theorem mem_rustTrim (s : List Char) (c : Char) (h : c ∈ rustTrim s) :
    c ∈ s := by
  unfold rustTrim at h
  rw [List.mem_reverse] at h
  have h2 := (List.dropWhile_sublist _).mem h
  rw [List.mem_reverse] at h2
  exact (List.dropWhile_sublist _).mem h2

theorem isAsciiStr_rustTrim (s : List Char) (h : isAsciiStr s = true) :
    isAsciiStr (rustTrim s) = true := by
  simp only [isAsciiStr, List.all_eq_true, decide_eq_true_eq] at h ⊢
  exact fun c hc => h c (mem_rustTrim s c hc)

theorem dropWhile_ws_eq_self (l : List Char)
    (h : ∀ c ∈ l, isRustWhitespace c = false) :
    l.dropWhile isRustWhitespace = l := by
  cases l with
  | nil => rfl
  | cons c cs =>
    rw [List.dropWhile_cons_of_neg]
    simp [h c (List.mem_cons_self c cs)]

theorem rustTrim_eq_self (s : List Char)
    (h : ∀ c ∈ s, isRustWhitespace c = false) : rustTrim s = s := by
  unfold rustTrim
  rw [dropWhile_ws_eq_self s h,
    dropWhile_ws_eq_self s.reverse (fun c hc => h c (List.mem_reverse.mp hc)),
    List.reverse_reverse]

theorem rustTrim_eq_nil (s : List Char)
    (h : ∀ c ∈ s, isRustWhitespace c = true) : rustTrim s = [] := by
  unfold rustTrim
  have h1 : s.dropWhile isRustWhitespace = [] :=
    List.dropWhile_eq_nil_iff.mpr (fun c hc => by simp [h c hc])
  rw [h1]
  rfl

theorem digit_not_whitespace (c : Char) (h48 : 48 ≤ c.toNat)
    (h57 : c.toNat ≤ 57) : isRustWhitespace c = false := by
  unfold isRustWhitespace
  simp only [Bool.or_eq_false_iff, Bool.and_eq_false_iff,
    beq_eq_false_iff_ne, ne_eq, decide_eq_false_iff_not, not_le]
  omega

theorem rustTrim_of_numeric (s : List Char)
    (h : utils.is_ascii_numeric s = true) : rustTrim s = s := by
  apply rustTrim_eq_self
  intro c hc
  simp only [utils.is_ascii_numeric, List.all_eq_true, Bool.and_eq_true,
    decide_eq_true_eq] at h
  exact digit_not_whitespace c (h c hc).1 (h c hc).2

theorem zero_pad_suffix (s : List Char) (L : Nat) :
    s.IsSuffix (utils.zero_pad s L) := by
  unfold utils.zero_pad
  by_cases h : byteLen s ≥ L
  · rw [if_pos h]
  · rw [if_neg h]
    exact List.suffix_append _ _

theorem zero_pad_of_lt (s : List Char) (L : Nat) (h : ¬ byteLen s ≥ L) :
    utils.zero_pad s L = List.replicate (L - byteLen s) '0' ++ s := by
  unfold utils.zero_pad
  rw [if_neg h]

theorem zero_pad_of_ge (s : List Char) (L : Nat) (h : byteLen s ≥ L) :
    utils.zero_pad s L = s := by
  unfold utils.zero_pad
  rw [if_pos h]

/-! ### Closed forms on constant lists, for exercising the 16-bit wrap -/

theorem gs1AltSum_replicate (n : Nat) :
    utils.gs1AltSum (List.replicate n 57) = (9 * ((n + 1) / 2), 9 * (n / 2)) := by
  induction n with
  | zero => rfl
  | succ n ih =>
    rw [List.replicate_succ]
    simp only [utils.gs1AltSum, ih, Prod.mk.injEq]
    exact ⟨by omega, trivial⟩

theorem altSums_replicate (n : Nat) :
    utils.altSums (List.replicate n 57)
      = (9 * ((n + 1) / 2) % 65536, 9 * (n / 2) % 65536) := by
  induction n with
  | zero => rfl
  | succ n ih =>
    rw [List.replicate_succ]
    simp only [utils.altSums, ih, Prod.mk.injEq]
    have hw : wsub8 57 48 = 9 := rfl
    rw [hw]
    exact ⟨by omega, trivial⟩

theorem compute_check_digit_replicate_3643 :
    utils.compute_check_digit (List.replicate 3643 57) = 0 := by
  unfold utils.compute_check_digit
  rw [List.length_replicate,
    show (3643 - 1 : Nat) = 3642 from rfl, List.take_replicate,
    show min 3642 3643 = 3642 from rfl, List.reverse_replicate,
    altSums_replicate]
  norm_num

theorem gs1WeightedSum_replicate_3643 :
    utils.gs1WeightedSum (List.replicate 3643 57) = 65556 := by
  unfold utils.gs1WeightedSum
  rw [List.length_replicate,
    show (3643 - 1 : Nat) = 3642 from rfl, List.take_replicate,
    show min 3642 3643 = 3642 from rfl, List.reverse_replicate,
    gs1AltSum_replicate]
  norm_num

/-! ### The checked execution never panics on the guarded paths -/

theorem ccdAuxChecked_eq (l : List Nat) (h : ∀ b ∈ l, 48 ≤ b ∧ b ≤ 57)
    (hlen : 9 * l.length < 65536) :
    utils.ccdAuxChecked l = some (utils.gs1AltSum l) := by
  induction l with
  | nil => rfl
  | cons b rest ih =>
    have hb := h b (List.mem_cons_self b rest)
    have hrest : ∀ x ∈ rest, 48 ≤ x ∧ x ≤ 57 :=
      fun x hx => h x (List.mem_cons_of_mem b hx)
    have hbound := utils.gs1AltSum_le_digits rest hrest
    simp only [List.length_cons] at hlen
    rw [show utils.ccdAuxChecked (b :: rest)
        = (utils.ccdAuxChecked rest).bind (fun p =>
            if b < 48 then none
            else if p.2 + (b - 48) ≥ 65536 then none
            else some (p.2 + (b - 48), p.1)) from rfl,
      ih hrest (by omega)]
    simp only [Option.some_bind]
    rw [if_neg (by omega), if_neg (by push_neg; omega)]
    simp only [utils.gs1AltSum, Option.some.injEq, Prod.mk.injEq]
    exact ⟨by omega, trivial⟩

theorem compute_check_digit_checked_eq (bytes : List Nat)
    (h : ∀ b ∈ bytes, 48 ≤ b ∧ b ≤ 57) (hlen : bytes.length ≤ 14) :
    utils.compute_check_digit_checked bytes
      = some (utils.compute_check_digit bytes) := by
  have hl : ∀ b ∈ (bytes.take (bytes.length - 1)).reverse, 48 ≤ b ∧ b ≤ 57 :=
    fun b hb => h b (List.mem_of_mem_take (List.mem_reverse.mp hb))
  have hlenl : (bytes.take (bytes.length - 1)).reverse.length ≤ 13 := by
    simp only [List.length_reverse, List.length_take]
    omega
  have hbound := utils.gs1AltSum_le_digits _ hl
  have haltS : utils.altSums ((bytes.take (bytes.length - 1)).reverse)
      = utils.gs1AltSum ((bytes.take (bytes.length - 1)).reverse) := by
    rw [altSums_eq_gs1 _ hl]
    exact Prod.ext (Nat.mod_eq_of_lt (by omega)) (Nat.mod_eq_of_lt (by omega))
  rw [show utils.compute_check_digit_checked bytes
      = (utils.ccdAuxChecked ((bytes.take (bytes.length - 1)).reverse)).bind
          (fun p =>
            if 3 * p.1 ≥ 65536 then none
            else if 3 * p.1 + p.2 ≥ 65536 then none
            else some (if (3 * p.1 + p.2) % 10 > 0
              then 10 - (3 * p.1 + p.2) % 10 else (3 * p.1 + p.2) % 10))
      from rfl,
    ccdAuxChecked_eq _ hl (by omega)]
  simp only [Option.some_bind]
  rw [if_neg (by push_neg; omega), if_neg (by push_neg; omega)]
  unfold utils.compute_check_digit
  rw [haltS]
  dsimp only
  set g1 := (utils.gs1AltSum ((bytes.take (bytes.length - 1)).reverse)).1
  set g2 := (utils.gs1AltSum ((bytes.take (bytes.length - 1)).reverse)).2
  have hlt : 3 * g1 + g2 < 65536 := by omega
  rw [Nat.mod_eq_of_lt hlt]

theorem checkChecked_eq (L : Nat) (hL : 0 < L) (hL14 : L ≤ 14)
    (code : List Char) : checkChecked L code = some (checkG L code) := by
  unfold checkChecked checkG
  by_cases h1 : byteLen code ≠ L
  · rw [if_pos h1, if_pos h1]
  · rw [if_neg h1, if_neg h1]
    by_cases h2 : utils.is_ascii_numeric code
    · rw [if_neg (by simp [h2]), if_neg (by simp [h2])]
      have hdig := utf8Bytes_digits code h2
      have hlen : (utf8Bytes code).length = L := by
        simpa [byteLen] using not_not.mp h1
      have hidx : L - 1 < (utf8Bytes code).length := by omega
      have hget : (utf8Bytes code).get? (L - 1)
          = some ((utf8Bytes code).getD (L - 1) 0) := by
        rw [List.getD_eq_getElem _ _ hidx, List.get?_eq_getElem?,
          List.getElem?_eq_getElem hidx]
      have hd := getD_digit_of_numeric code (L - 1) h2 hidx
      have hc := compute_check_digit_lt_10 (utf8Bytes code)
      rw [show ((do
          let bytes := utf8Bytes code
          let check ← utils.compute_check_digit_checked bytes
          if check + 48 ≥ 256 then none
          else
            match bytes.get? (L - 1) with
            | none => none
            | some last =>
              if last < 48 then none
              else some (check + 48 == last)) : Option Bool)
        = (utils.compute_check_digit_checked (utf8Bytes code)).bind
            (fun check =>
              if check + 48 ≥ 256 then none
              else
                match (utf8Bytes code).get? (L - 1) with
                | none => none
                | some last =>
                  if last < 48 then none
                  else some (check + 48 == last)) from rfl,
        compute_check_digit_checked_eq _ hdig (by omega)]
      simp only [Option.some_bind]
      rw [if_neg (by omega), hget]
      dsimp only
      rw [if_neg (by omega)]
    · rw [if_pos (by simp [h2]), if_pos (by simp [h2])]

theorem char_toNat_inj (a b : Char) (h : a.toNat = b.toNat) : a = b := by
  have h2 := congrArg Char.ofNat h
  rwa [Char.ofNat_toNat, Char.ofNat_toNat] at h2

theorem utf8Bytes_append (s t : List Char) :
    utf8Bytes (s ++ t) = utf8Bytes s ++ utf8Bytes t := by
  simp [utf8Bytes]

/-! ## The claims -/

/-- C1: for each supported length L ∈ {8, 12, 13, 14}, the length-specific
`check(code)` returns true iff all of: `code` consists only of ASCII
bytes, `code` has length exactly L, every character of `code` is an ASCII
decimal digit, and the check digit computed from the code equals the
digit value of `code`'s last character. -/
theorem claim_check_iff (code : List Char) :
    (gtin8.check code = true ↔
      isAsciiStr code = true ∧ code.length = 8 ∧
      utils.is_ascii_numeric code = true ∧
      utils.compute_check_digit (utf8Bytes code)
        = (code.getLastD ' ').toNat - 48) ∧
    (gtin12.check code = true ↔
      isAsciiStr code = true ∧ code.length = 12 ∧
      utils.is_ascii_numeric code = true ∧
      utils.compute_check_digit (utf8Bytes code)
        = (code.getLastD ' ').toNat - 48) ∧
    (gtin13.check code = true ↔
      isAsciiStr code = true ∧ code.length = 13 ∧
      utils.is_ascii_numeric code = true ∧
      utils.compute_check_digit (utf8Bytes code)
        = (code.getLastD ' ').toNat - 48) ∧
    (gtin14.check code = true ↔
      isAsciiStr code = true ∧ code.length = 14 ∧
      utils.is_ascii_numeric code = true ∧
      utils.compute_check_digit (utf8Bytes code)
        = (code.getLastD ' ').toNat - 48) := by
  refine ⟨?_, ?_, ?_, ?_⟩
  · rw [gtin8_check_eq]
    exact checkG_iff 8 (by norm_num) code
  · rw [gtin12_check_eq]
    exact checkG_iff 12 (by norm_num) code
  · rw [gtin13_check_eq]
    exact checkG_iff 13 (by norm_num) code
  · rw [gtin14_check_eq]
    exact checkG_iff 14 (by norm_num) code

/-- C1 witness: the characterization applied at the valid GTIN-8
`"14567810"`. -/
theorem claim_check_iff_witness : gtin8.check ("14567810".data) = true :=
  (claim_check_iff "14567810".data).1.mpr
    ⟨by decide, by decide, by decide, by decide⟩

/-- C2 (amended): on all-digit byte sequences `compute_check_digit` is
total with value in 0–9, the value ignores the last byte, and it equals
`(10 − ((weighted_sum mod 2^16) mod 10)) mod 10` — the accumulators and the
sum `3 * odd + even` are 16-bit, so the weighted sum is reduced modulo
2^16; whenever the weighted sum is below 2^16 (true for every input of
fewer than about 3600 digits, in particular every GTIN length) this is
exactly `(10 − (weighted_sum mod 10)) mod 10`. -/
theorem claim_compute_check_digit (bytes : List Nat)
    (h : ∀ b ∈ bytes, 48 ≤ b ∧ b ≤ 57) :
    utils.compute_check_digit bytes < 10 ∧
    utils.compute_check_digit bytes
      = (10 - utils.gs1WeightedSum bytes % 65536 % 10) % 10 ∧
    (utils.gs1WeightedSum bytes < 65536 →
      utils.compute_check_digit bytes
        = (10 - utils.gs1WeightedSum bytes % 10) % 10) ∧
    (∀ b b' : Nat, utils.compute_check_digit (bytes.dropLast ++ [b])
      = utils.compute_check_digit (bytes.dropLast ++ [b'])) := by
  refine ⟨compute_check_digit_lt_10 bytes,
    compute_check_digit_formula bytes h, ?_, ?_⟩
  · intro hS
    rw [compute_check_digit_formula bytes h, Nat.mod_eq_of_lt hS]
  · intro b b'
    exact compute_check_digit_last_irrelevant _ _ _

/-- C2 witness: the amended statement applied at the digit bytes of
`"1234"`. -/
theorem claim_compute_check_digit_witness :
    utils.compute_check_digit [49, 50, 51, 52] < 10 ∧
    utils.compute_check_digit [49, 50, 51, 52]
      = (10 - utils.gs1WeightedSum [49, 50, 51, 52] % 65536 % 10) % 10 ∧
    utils.compute_check_digit [49, 50, 51, 52]
      = (10 - utils.gs1WeightedSum [49, 50, 51, 52] % 10) % 10 :=
  ⟨(claim_compute_check_digit [49, 50, 51, 52] (by decide)).1,
   (claim_compute_check_digit [49, 50, 51, 52] (by decide)).2.1,
   (claim_compute_check_digit [49, 50, 51, 52] (by decide)).2.2.1 (by decide)⟩

/-- C2 counterexample: on 3643 bytes `'9'` (all ASCII digits) the true
weighted sum is 65556 ≥ 2^16, the 16-bit arithmetic wraps, and the code
returns 0 where `(10 − (weighted_sum mod 10)) mod 10 = 4`. -/
theorem claim_compute_check_digit_counterexample :
    ((List.replicate 3643 57).all
      fun b => decide (48 ≤ b) && decide (b ≤ 57)) = true ∧
    utils.gs1WeightedSum (List.replicate 3643 57) = 65556 ∧
    utils.compute_check_digit (List.replicate 3643 57) = 0 ∧
    utils.compute_check_digit (List.replicate 3643 57)
      ≠ (10 - utils.gs1WeightedSum (List.replicate 3643 57) % 10) % 10 := by
  refine ⟨?_, gs1WeightedSum_replicate_3643,
    compute_check_digit_replicate_3643, ?_⟩
  · rw [List.all_eq_true]
    intro b hb
    rcases List.eq_of_mem_replicate hb with rfl
    decide
  · rw [compute_check_digit_replicate_3643, gs1WeightedSum_replicate_3643]
    norm_num

/-- C3 (amended): for every input whose TRIMMED text contains a non-ASCII
character, every `fix` returns `NonAsciiString` (so before any length
reasoning); non-ASCII characters that are Unicode whitespace at the ends
of the input are removed by the trim and do not trigger the error. -/
theorem claim_fix_nonascii (s : List Char)
    (h : isAsciiStr (rustTrim s) = false) :
    gtin8.fix s = .error .NonAsciiString ∧
    gtin12.fix s = .error .NonAsciiString ∧
    gtin13.fix s = .error .NonAsciiString ∧
    gtin14.fix s = .error .NonAsciiString := by
  rw [gtin8_fix_eq, gtin12_fix_eq, gtin13_fix_eq, gtin14_fix_eq]
  exact ⟨fixG_nonascii _ _ _ h, fixG_nonascii _ _ _ h,
    fixG_nonascii _ _ _ h, fixG_nonascii _ _ _ h⟩

/-- C3 witness: an interior non-ASCII character (`'♥'`) survives the trim
and is reported as `NonAsciiString`. -/
theorem claim_fix_nonascii_witness :
    isAsciiStr (rustTrim "12♥4".data) = false ∧
    gtin12.fix "12♥4".data = .error .NonAsciiString :=
  ⟨by decide, (claim_fix_nonascii "12♥4".data (by decide)).2.1⟩

/-- C3 counterexample: the ORIGINAL input `"0000000000000" ++ U+00A0`
contains a non-ASCII character (the no-break space, which Rust's `trim`
removes as Unicode whitespace), yet `gtin12::fix` reports `TooLong`, not
`NonAsciiString`. -/
theorem claim_fix_nonascii_counterexample :
    isAsciiStr ("0000000000000".data ++ [Char.ofNat 160]) = false ∧
    gtin12.fix ("0000000000000".data ++ [Char.ofNat 160])
      = .error .TooLong := by
  refine ⟨by decide, ?_⟩
  rfl

/-- C4: for all-ASCII input, a trimmed length above L yields `TooLong`,
and any successful repair contains the whole trimmed input as a suffix
(zero-padding only — never truncation). -/
theorem claim_fix_toolong (s : List Char) (h : isAsciiStr s = true) :
    ((rustTrim s).length > 8 → gtin8.fix s = .error .TooLong) ∧
    ((rustTrim s).length > 12 → gtin12.fix s = .error .TooLong) ∧
    ((rustTrim s).length > 13 → gtin13.fix s = .error .TooLong) ∧
    ((rustTrim s).length > 14 → gtin14.fix s = .error .TooLong) ∧
    (∀ r, gtin8.fix s = .ok r → (rustTrim s).IsSuffix r) ∧
    (∀ r, gtin12.fix s = .ok r → (rustTrim s).IsSuffix r) ∧
    (∀ r, gtin13.fix s = .ok r → (rustTrim s).IsSuffix r) ∧
    (∀ r, gtin14.fix s = .ok r → (rustTrim s).IsSuffix r) := by
  have hta := isAsciiStr_rustTrim s h
  have hbl : byteLen (rustTrim s) = (rustTrim s).length := byteLen_ascii _ hta
  refine ⟨?_, ?_, ?_, ?_, ?_, ?_, ?_, ?_⟩
  · intro hlen
    rw [gtin8_fix_eq]
    exact fixG_toolong _ _ _ hta (by omega)
  · intro hlen
    rw [gtin12_fix_eq]
    exact fixG_toolong _ _ _ hta (by omega)
  · intro hlen
    rw [gtin13_fix_eq]
    exact fixG_toolong _ _ _ hta (by omega)
  · intro hlen
    rw [gtin14_fix_eq]
    exact fixG_toolong _ _ _ hta (by omega)
  · intro r hr
    rw [gtin8_fix_eq] at hr
    obtain ⟨rfl, -⟩ := fixG_ok _ _ _ _ hr
    exact zero_pad_suffix _ _
  · intro r hr
    rw [gtin12_fix_eq] at hr
    obtain ⟨rfl, -⟩ := fixG_ok _ _ _ _ hr
    exact zero_pad_suffix _ _
  · intro r hr
    rw [gtin13_fix_eq] at hr
    obtain ⟨rfl, -⟩ := fixG_ok _ _ _ _ hr
    exact zero_pad_suffix _ _
  · intro r hr
    rw [gtin14_fix_eq] at hr
    obtain ⟨rfl, -⟩ := fixG_ok _ _ _ _ hr
    exact zero_pad_suffix _ _

/-- C4 witness: thirteen zeros are too long for GTIN-12, and a successful
GTIN-12 repair keeps the trimmed input as a suffix. -/
theorem claim_fix_toolong_witness :
    gtin12.fix "0000000000000".data = .error .TooLong ∧
    (rustTrim "87248795257".data).IsSuffix "087248795257".data :=
  ⟨(claim_fix_toolong "0000000000000".data (by decide)).2.1 (by decide),
   (claim_fix_toolong "87248795257".data (by decide)).2.2.2.2.2.1
     "087248795257".data (by rfl)⟩

/-- C5: whenever `fix` succeeds with `Ok(r)`, `check(r)` is true, `r` has
exactly the target length, and every character of `r` is an ASCII decimal
digit. -/
theorem claim_fix_then_check (s r : List Char) :
    (gtin8.fix s = .ok r → gtin8.check r = true ∧ r.length = 8 ∧
      utils.is_ascii_numeric r = true) ∧
    (gtin12.fix s = .ok r → gtin12.check r = true ∧ r.length = 12 ∧
      utils.is_ascii_numeric r = true) ∧
    (gtin13.fix s = .ok r → gtin13.check r = true ∧ r.length = 13 ∧
      utils.is_ascii_numeric r = true) ∧
    (gtin14.fix s = .ok r → gtin14.check r = true ∧ r.length = 14 ∧
      utils.is_ascii_numeric r = true) := by
  refine ⟨?_, ?_, ?_, ?_⟩
  · intro hr
    rw [gtin8_fix_eq] at hr
    obtain ⟨-, hchk⟩ := fixG_ok _ _ _ _ hr
    rw [gtin8_check_eq] at hchk
    obtain ⟨-, hlen, hnum, -⟩ := (checkG_iff 8 (by norm_num) r).mp hchk
    exact ⟨by rw [gtin8_check_eq]; exact hchk, hlen, hnum⟩
  · intro hr
    rw [gtin12_fix_eq] at hr
    obtain ⟨-, hchk⟩ := fixG_ok _ _ _ _ hr
    rw [gtin12_check_eq] at hchk
    obtain ⟨-, hlen, hnum, -⟩ := (checkG_iff 12 (by norm_num) r).mp hchk
    exact ⟨by rw [gtin12_check_eq]; exact hchk, hlen, hnum⟩
  · intro hr
    rw [gtin13_fix_eq] at hr
    obtain ⟨-, hchk⟩ := fixG_ok _ _ _ _ hr
    rw [gtin13_check_eq] at hchk
    obtain ⟨-, hlen, hnum, -⟩ := (checkG_iff 13 (by norm_num) r).mp hchk
    exact ⟨by rw [gtin13_check_eq]; exact hchk, hlen, hnum⟩
  · intro hr
    rw [gtin14_fix_eq] at hr
    obtain ⟨-, hchk⟩ := fixG_ok _ _ _ _ hr
    rw [gtin14_check_eq] at hchk
    obtain ⟨-, hlen, hnum, -⟩ := (checkG_iff 14 (by norm_num) r).mp hchk
    exact ⟨by rw [gtin14_check_eq]; exact hchk, hlen, hnum⟩

/-- C5 witness: the repaired GTIN-12 of `"87248795257"` passes `check`. -/
theorem claim_fix_then_check_witness :
    gtin12.check "087248795257".data = true ∧
    ("087248795257".data).length = 12 ∧
    utils.is_ascii_numeric "087248795257".data = true :=
  (claim_fix_then_check "87248795257".data "087248795257".data).2.1 (by rfl)

/-- On digit strings of the right length, appending the computed check
digit makes `checkG` succeed. -/
theorem checkG_append_computed (L : Nat) (hL : 0 < L) (ds : List Char)
    (c : Char) (hds : utils.is_ascii_numeric ds = true)
    (hc48 : 48 ≤ c.toNat) (hc57 : c.toNat ≤ 57)
    (hcd : c.toNat - 48 = utils.compute_check_digit (utf8Bytes (ds ++ [c])))
    (hlen : ds.length = L - 1) :
    checkG L (ds ++ [c]) = true := by
  have hnum : utils.is_ascii_numeric (ds ++ [c]) = true := by
    simp only [utils.is_ascii_numeric, List.all_append, List.all_cons,
      List.all_nil, Bool.and_true, Bool.and_eq_true, decide_eq_true_eq]
    refine ⟨?_, hc48, hc57⟩
    simpa [utils.is_ascii_numeric] using hds
  refine (checkG_iff L hL _).mpr
    ⟨isAsciiStr_of_numeric _ hnum, by simp [hlen]; omega, hnum, ?_⟩
  rw [List.getLastD_concat]
  exact hcd.symm

/-- C6: a string of L−1 arbitrary ASCII digits followed by the digit
produced by the check-digit computation on those digits passes `check`,
for each supported length. -/
theorem claim_check_of_computed (ds : List Char) (c : Char)
    (hds : utils.is_ascii_numeric ds = true)
    (hc48 : 48 ≤ c.toNat) (hc57 : c.toNat ≤ 57)
    (hcd : c.toNat - 48
      = utils.compute_check_digit (utf8Bytes (ds ++ [c]))) :
    (ds.length = 7 → gtin8.check (ds ++ [c]) = true) ∧
    (ds.length = 11 → gtin12.check (ds ++ [c]) = true) ∧
    (ds.length = 12 → gtin13.check (ds ++ [c]) = true) ∧
    (ds.length = 13 → gtin14.check (ds ++ [c]) = true) := by
  refine ⟨fun h7 => ?_, fun h11 => ?_, fun h12 => ?_, fun h13 => ?_⟩
  · rw [gtin8_check_eq]
    exact checkG_append_computed 8 (by norm_num) ds c hds hc48 hc57 hcd
      (by omega)
  · rw [gtin12_check_eq]
    exact checkG_append_computed 12 (by norm_num) ds c hds hc48 hc57 hcd
      (by omega)
  · rw [gtin13_check_eq]
    exact checkG_append_computed 13 (by norm_num) ds c hds hc48 hc57 hcd
      (by omega)
  · rw [gtin14_check_eq]
    exact checkG_append_computed 14 (by norm_num) ds c hds hc48 hc57 hcd
      (by omega)

/-- C6 witness: `"12345678901"` with its computed check digit `'2'`. -/
theorem claim_check_of_computed_witness :
    gtin12.check ("12345678901".data ++ ['2']) = true :=
  (claim_check_of_computed "12345678901".data '2' (by decide) (by decide)
    (by decide) (by decide)).2.1 (by decide)

/-- Replacing only the last character of a `checkG`-valid string with a
different digit always fails `checkG`. -/
theorem checkG_last_sensitive (L : Nat) (hL : 0 < L) (l : List Char)
    (a b : Char) (hb48 : 48 ≤ b.toNat) (hb57 : b.toNat ≤ 57) (hne : b ≠ a)
    (h : checkG L (l ++ [a]) = true) : checkG L (l ++ [b]) = false := by
  obtain ⟨hascii, hlen, hnum, hcd⟩ := (checkG_iff L hL _).mp h
  have hl := (is_ascii_numeric_concat l a hnum).1
  have ha := (is_ascii_numeric_concat l a hnum).2
  by_contra hfalse
  have htrue : checkG L (l ++ [b]) = true := by
    rcases Bool.eq_false_or_eq_true (checkG L (l ++ [b])) with ht | hf
    · exact ht
    · exact absurd hf hfalse
  obtain ⟨-, -, -, hcd2⟩ := (checkG_iff L hL _).mp htrue
  rw [List.getLastD_concat] at hcd hcd2
  have hasciil := isAsciiStr_of_numeric _ hl
  have hba : utf8Bytes (l ++ [a]) = utf8Bytes l ++ [a.toNat] := by
    rw [utf8Bytes_append]
    simp [utf8Bytes, utf8EncodeChar_ascii a (by omega)]
  have hbb : utf8Bytes (l ++ [b]) = utf8Bytes l ++ [b.toNat] := by
    rw [utf8Bytes_append]
    simp [utf8Bytes, utf8EncodeChar_ascii b (by omega)]
  have hsame : utils.compute_check_digit (utf8Bytes (l ++ [a]))
      = utils.compute_check_digit (utf8Bytes (l ++ [b])) := by
    rw [hba, hbb]
    exact compute_check_digit_last_irrelevant _ _ _
  have : a.toNat = b.toNat := by omega
  exact hne (char_toNat_inj b a this.symm)

/-- C7: for every valid code, replacing only the final character with any
other digit value makes `check` false, for each supported length. -/
theorem claim_check_last_sensitive (l : List Char) (a b : Char)
    (hb48 : 48 ≤ b.toNat) (hb57 : b.toNat ≤ 57) (hne : b ≠ a) :
    (gtin8.check (l ++ [a]) = true → gtin8.check (l ++ [b]) = false) ∧
    (gtin12.check (l ++ [a]) = true → gtin12.check (l ++ [b]) = false) ∧
    (gtin13.check (l ++ [a]) = true → gtin13.check (l ++ [b]) = false) ∧
    (gtin14.check (l ++ [a]) = true → gtin14.check (l ++ [b]) = false) := by
  refine ⟨fun h => ?_, fun h => ?_, fun h => ?_, fun h => ?_⟩
  · rw [gtin8_check_eq] at h ⊢
    exact checkG_last_sensitive 8 (by norm_num) l a b hb48 hb57 hne h
  · rw [gtin12_check_eq] at h ⊢
    exact checkG_last_sensitive 12 (by norm_num) l a b hb48 hb57 hne h
  · rw [gtin13_check_eq] at h ⊢
    exact checkG_last_sensitive 13 (by norm_num) l a b hb48 hb57 hne h
  · rw [gtin14_check_eq] at h ⊢
    exact checkG_last_sensitive 14 (by norm_num) l a b hb48 hb57 hne h

/-- C7 witness: `"123456789012"` is valid, so `"123456789013"` is not. -/
theorem claim_check_last_sensitive_witness :
    gtin12.check ("12345678901".data ++ ['3']) = false :=
  (claim_check_last_sensitive "12345678901".data '2' '3' (by decide)
    (by decide) (by decide)).2.1 (by decide)

/-- C8: each `check` is total — the panic-explicit model of the
computation (underflow and overflow checks on every machine-arithmetic
site and on the final slice index) completes on every input and returns
exactly the boolean that `check` returns. -/
theorem claim_check_total (code : List Char) :
    checkChecked 8 code = some (gtin8.check code) ∧
    checkChecked 12 code = some (gtin12.check code) ∧
    checkChecked 13 code = some (gtin13.check code) ∧
    checkChecked 14 code = some (gtin14.check code) := by
  rw [gtin8_check_eq, gtin12_check_eq, gtin13_check_eq, gtin14_check_eq]
  exact ⟨checkChecked_eq 8 (by norm_num) (by norm_num) code,
    checkChecked_eq 12 (by norm_num) (by norm_num) code,
    checkChecked_eq 13 (by norm_num) (by norm_num) code,
    checkChecked_eq 14 (by norm_num) (by norm_num) code⟩

/-- A `checkG`-valid string is returned unchanged by the common fix
shape. -/
theorem fixG_of_checkG (L : Nat) (hL : 0 < L) (chk : List Char → Bool)
    (hchk : ∀ t, chk t = checkG L t) (s : List Char) (h : chk s = true) :
    fixG L chk s = .ok s := by
  have hG : checkG L s = true := by
    rw [← hchk]
    exact h
  obtain ⟨hascii, hlen, hnum, -⟩ := (checkG_iff L hL s).mp hG
  have htrim : rustTrim s = s := rustTrim_of_numeric s hnum
  have hbl : byteLen s = s.length := byteLen_ascii s hascii
  have hpad : utils.zero_pad s L = s := zero_pad_of_ge s L (by omega)
  have h2 := fixG_ok_of L chk s (by rw [htrim]; exact hascii)
    (by rw [htrim]; omega) (by rw [htrim, hpad]; exact h)
  rwa [htrim, hpad] at h2

/-- C9: an already-valid code is a fixed point of `fix`, and `fix` is
idempotent on every input on which it succeeds, for each supported
length. -/
theorem claim_fix_fixed_point (s : List Char) :
    (gtin8.check s = true → gtin8.fix s = .ok s) ∧
    (gtin12.check s = true → gtin12.fix s = .ok s) ∧
    (gtin13.check s = true → gtin13.fix s = .ok s) ∧
    (gtin14.check s = true → gtin14.fix s = .ok s) ∧
    (∀ r, gtin8.fix s = .ok r → gtin8.fix r = .ok r) ∧
    (∀ r, gtin12.fix s = .ok r → gtin12.fix r = .ok r) ∧
    (∀ r, gtin13.fix s = .ok r → gtin13.fix r = .ok r) ∧
    (∀ r, gtin14.fix s = .ok r → gtin14.fix r = .ok r) := by
  refine ⟨fun h => ?_, fun h => ?_, fun h => ?_, fun h => ?_,
    fun r hr => ?_, fun r hr => ?_, fun r hr => ?_, fun r hr => ?_⟩
  · rw [gtin8_fix_eq]
    exact fixG_of_checkG 8 (by norm_num) _ gtin8_check_eq s h
  · rw [gtin12_fix_eq]
    exact fixG_of_checkG 12 (by norm_num) _ gtin12_check_eq s h
  · rw [gtin13_fix_eq]
    exact fixG_of_checkG 13 (by norm_num) _ gtin13_check_eq s h
  · rw [gtin14_fix_eq]
    exact fixG_of_checkG 14 (by norm_num) _ gtin14_check_eq s h
  · rw [gtin8_fix_eq] at hr
    obtain ⟨-, hchk⟩ := fixG_ok _ _ _ _ hr
    rw [gtin8_fix_eq]
    exact fixG_of_checkG 8 (by norm_num) _ gtin8_check_eq r hchk
  · rw [gtin12_fix_eq] at hr
    obtain ⟨-, hchk⟩ := fixG_ok _ _ _ _ hr
    rw [gtin12_fix_eq]
    exact fixG_of_checkG 12 (by norm_num) _ gtin12_check_eq r hchk
  · rw [gtin13_fix_eq] at hr
    obtain ⟨-, hchk⟩ := fixG_ok _ _ _ _ hr
    rw [gtin13_fix_eq]
    exact fixG_of_checkG 13 (by norm_num) _ gtin13_check_eq r hchk
  · rw [gtin14_fix_eq] at hr
    obtain ⟨-, hchk⟩ := fixG_ok _ _ _ _ hr
    rw [gtin14_fix_eq]
    exact fixG_of_checkG 14 (by norm_num) _ gtin14_check_eq r hchk

/-- C9 witness: the valid GTIN-12 `"123456789012"` is returned
unchanged. -/
theorem claim_fix_fixed_point_witness :
    gtin12.fix "123456789012".data = .ok "123456789012".data :=
  (claim_fix_fixed_point "123456789012".data).2.1 (by decide)

/-- C10: `fix` on the empty string, or any all-whitespace string,
succeeds with the all-zeros code of the target length, for each
supported length. -/
theorem claim_fix_whitespace (s : List Char)
    (h : ∀ c ∈ s, isRustWhitespace c = true) :
    gtin8.fix s = .ok (List.replicate 8 '0') ∧
    gtin12.fix s = .ok (List.replicate 12 '0') ∧
    gtin13.fix s = .ok (List.replicate 13 '0') ∧
    gtin14.fix s = .ok (List.replicate 14 '0') := by
  have htrim : rustTrim s = [] := rustTrim_eq_nil s h
  refine ⟨?_, ?_, ?_, ?_⟩
  · rw [gtin8_fix_eq]
    have h2 := fixG_ok_of 8 gtin8.check s (by rw [htrim]; rfl)
      (by rw [htrim]; decide) (by rw [htrim]; decide)
    rwa [htrim, show utils.zero_pad ([] : List Char) 8
      = List.replicate 8 '0' from rfl] at h2
  · rw [gtin12_fix_eq]
    have h2 := fixG_ok_of 12 gtin12.check s (by rw [htrim]; rfl)
      (by rw [htrim]; decide) (by rw [htrim]; decide)
    rwa [htrim, show utils.zero_pad ([] : List Char) 12
      = List.replicate 12 '0' from rfl] at h2
  · rw [gtin13_fix_eq]
    have h2 := fixG_ok_of 13 gtin13.check s (by rw [htrim]; rfl)
      (by rw [htrim]; decide) (by rw [htrim]; decide)
    rwa [htrim, show utils.zero_pad ([] : List Char) 13
      = List.replicate 13 '0' from rfl] at h2
  · rw [gtin14_fix_eq]
    have h2 := fixG_ok_of 14 gtin14.check s (by rw [htrim]; rfl)
      (by rw [htrim]; decide) (by rw [htrim]; decide)
    rwa [htrim, show utils.zero_pad ([] : List Char) 14
      = List.replicate 14 '0' from rfl] at h2

/-- C10 witness: the empty string and a whitespace-only string repair to
all zeros. -/
theorem claim_fix_whitespace_witness :
    gtin12.fix ([] : List Char) = .ok (List.replicate 12 '0') ∧
    gtin8.fix [' ', ' '] = .ok (List.replicate 8 '0') :=
  ⟨(claim_fix_whitespace [] (by decide)).2.1,
   (claim_fix_whitespace [' ', ' '] (by decide)).1⟩

end GtinValidate
